import Mathlib

/-
Verification of the task_management repository's task lifecycle core:
tasks/models.py (Task, TaskQuerySet), tasks/serializers.py (TaskSerializer),
tasks/views.py (TaskListCreateView, TaskDetailView) and
tasks/notifications.py (send_task_notification, send_due_date_reminder).

Users are referenced by numeric id, timestamps by integers (seconds).
The store is the tm_tasks table plus the set of existing user ids.
-/

namespace TaskMgmt

/-- Task status (models.py STATUS_CHOICES: pending, in_progress, completed). -/
inductive Status where
  | pending
  | inProgress
  | completed
  deriving DecidableEq, Repr

/-- A row of the tm_tasks table (models.py, class Task). The owner is a
required user reference, the assignee a nullable one. -/
structure Task where
  id : Nat
  title : String
  description : String
  status : Status
  owner : Nat
  assignee : Option Nat
  dueDate : Option Int
  createdAt : Int
  updatedAt : Int
  isDeleted : Bool
  deletedAt : Option Int
  deriving DecidableEq, Repr

/-- The authenticated principal (request.user): its id and the is_staff
flag, which is what the views test for administrator privilege. -/
structure User where
  id : Nat
  isStaff : Bool
  deriving DecidableEq, Repr

/-- Persistent state: the task table and the existing user ids
(User.objects.all(), as consulted by the serializer's assignee field). -/
structure Store where
  tasks : List Task
  users : List Nat
  deriving DecidableEq, Repr

/-- TaskQuerySet.not_deleted (models.py): filter out soft-deleted rows. -/
def notDeleted (ts : List Task) : List Task :=
  ts.filter (fun t => !t.isDeleted)

/-- Object lookup of TaskDetailView: get_queryset is
Task.objects.not_deleted(), and get_object fetches by primary key. -/
def getObject (st : Store) (tid : Nat) : Option Task :=
  (notDeleted st.tasks).find? (fun t => t.id == tid)

/-- The exact-match query parameters of GET /tasks
(filterset_fields = owner, status, assignee, due_date in views.py). -/
structure TaskFilter where
  owner : Option Nat := none
  status : Option Status := none
  assignee : Option Nat := none
  dueDate : Option Int := none
  deriving DecidableEq, Repr

def matchesFilter (f : TaskFilter) (t : Task) : Bool :=
  (match f.owner with | none => true | some o => t.owner == o) &&
  (match f.status with | none => true | some s => t.status == s) &&
  (match f.assignee with | none => true | some a => t.assignee == some a) &&
  (match f.dueDate with | none => true | some d => t.dueDate == some d)

/-- GET /tasks (TaskListCreateView): get_queryset returns
Task.objects.not_deleted(); the filter backend then applies the
exact-match filters. Ordering is irrelevant to the claims and not
modelled. -/
def listTasks (st : Store) (f : TaskFilter) : List Task :=
  (notDeleted st.tasks).filter (matchesFilter f)

/-- Request outcomes: 404, 403, 400, plus the unhandled Python
AttributeError raised in perform_update when old_assignee is None
(surfacing as a 500). -/
inductive ApiError where
  | notFound
  | forbidden
  | validation
  | attributeFault
  deriving DecidableEq, Repr

/-- A queued call send_task_notification.delay(task_id, action). -/
structure Notification where
  taskId : Nat
  action : String
  deriving DecidableEq, Repr

/-- Writable fields of TaskSerializer on creation; status defaults to
pending (model default), assignee and due_date default to null. -/
structure CreatePayload where
  title : String
  description : String
  status : Status := .pending
  assignee : Option Nat := none
  dueDate : Option Int := none
  deriving DecidableEq, Repr

/-- Validation of the serializer's assignee field: a non-null id must name
an existing user (PrimaryKeyRelatedField over User.objects.all,
allow_null=True). -/
def assigneeValid (st : Store) (a : Option Nat) : Bool :=
  match a with
  | none => true
  | some uid => st.users.contains uid

/-- A fresh primary key for an insert. -/
def nextId (st : Store) : Nat :=
  (st.tasks.map Task.id).foldr max 0 + 1

structure CreateOut where
  result : Except ApiError Task
  store : Store
  notifs : List Notification

/-- POST /tasks (TaskListCreateView): the serializer validates (title and
description required non-blank, assignee must resolve), save(owner=user)
inserts the row stamping created_at/updated_at, and perform_create
enqueues one "assigned" notification iff the saved task has a non-null
assignee. -/
def createTask (st : Store) (caller : User) (p : CreatePayload) (now : Int) : CreateOut :=
  if p.title == "" || p.description == "" || !assigneeValid st p.assignee then
    ⟨.error .validation, st, []⟩
  else
    let t : Task :=
      { id := nextId st, title := p.title, description := p.description,
        status := p.status, owner := caller.id, assignee := p.assignee,
        dueDate := p.dueDate, createdAt := now, updatedAt := now,
        isDeleted := false, deletedAt := none }
    ⟨.ok t, { st with tasks := t :: st.tasks },
      if t.assignee.isSome then [⟨t.id, "assigned"⟩] else []⟩

/-- A PUT/PATCH body: each field applied only when present; a present
assignee may itself be null. -/
structure TaskPatch where
  title : Option String := none
  description : Option String := none
  status : Option Status := none
  assignee : Option (Option Nat) := none
  dueDate : Option (Option Int) := none
  deriving DecidableEq, Repr

def patchValid (st : Store) (p : TaskPatch) : Bool :=
  (match p.title with | some s => s != "" | none => true) &&
  (match p.description with | some s => s != "" | none => true) &&
  (match p.assignee with | some a => assigneeValid st a | none => true)

/-- serializer.save() on update: merge the present fields onto the row and
refresh updated_at (auto_now). -/
def applyPatch (t : Task) (p : TaskPatch) (now : Int) : Task :=
  { t with
    title := p.title.getD t.title,
    description := p.description.getD t.description,
    status := p.status.getD t.status,
    assignee := match p.assignee with | some a => a | none => t.assignee,
    dueDate := match p.dueDate with | some d => d | none => t.dueDate,
    updatedAt := now }

/-- Persisting a saved row: replace the row with the same primary key. -/
def saveTask (st : Store) (t : Task) : Store :=
  { st with tasks := st.tasks.map (fun u => if u.id == t.id then t else u) }

structure UpdateOut where
  result : Except ApiError Task
  store : Store
  notifs : List Notification

/-- PUT/PATCH /tasks/{id}: the DRF update flow runs get_object (404
through the not-deleted queryset), serializer validation (400), then
TaskDetailView.perform_update: the owner-or-staff permission check (403),
old_assignee := task.assignee, serializer.save(), enqueue "updated", and
then, guarded by task.assignee being truthy, the comparison
old_assignee.id != task.assignee.id - which dereferences None and raises
AttributeError when the previous assignee was null, after the save and
the "updated" enqueue have already happened. -/
def updateTask (st : Store) (caller : User) (tid : Nat) (p : TaskPatch) (now : Int) : UpdateOut :=
  match getObject st tid with
  | none => ⟨.error .notFound, st, []⟩
  | some task =>
    if !patchValid st p then ⟨.error .validation, st, []⟩
    else if task.owner != caller.id && !caller.isStaff then
      ⟨.error .forbidden, st, []⟩
    else
      let t' := applyPatch task p now
      { result :=
          match t'.assignee, task.assignee with
          | some _, none => .error .attributeFault
          | _, _ => .ok t'
        store := saveTask st t'
        notifs :=
          match t'.assignee, task.assignee with
          | some newA, some oldA =>
            if oldA != newA then [⟨t'.id, "updated"⟩, ⟨t'.id, "assigned"⟩]
            else [⟨t'.id, "updated"⟩]
          | _, _ => [⟨t'.id, "updated"⟩] }

/-- Task.delete (models.py): soft delete - set is_deleted, stamp
deleted_at, and save(), which through auto_now also refreshes
updated_at. -/
def softDelete (t : Task) (now : Int) : Task :=
  { t with isDeleted := true, deletedAt := some now, updatedAt := now }

structure DeleteOut where
  result : Except ApiError Unit
  store : Store

/-- DELETE /tasks/{id} (TaskDetailView.perform_destroy): 404 through the
not-deleted queryset, owner-or-staff permission check, then
instance.delete(). No notification is enqueued. -/
def deleteTask (st : Store) (caller : User) (tid : Nat) (now : Int) : DeleteOut :=
  match getObject st tid with
  | none => ⟨.error .notFound, st⟩
  | some task =>
    if task.owner != caller.id && !caller.isStaff then
      ⟨.error .forbidden, st⟩
    else
      ⟨.ok (), saveTask st (softDelete task now)⟩

/-- GET /tasks/{id}: the task through the not-deleted queryset, else 404.
No ownership restriction on read. -/
def retrieveTask (st : Store) (tid : Nat) : Except ApiError Task :=
  match getObject st tid with
  | none => .error .notFound
  | some t => .ok t

/-- send_task_notification (notifications.py), as executed by the worker:
re-reads the task by id through the unfiltered manager and mails the
assignee it finds then; a missing row or a null assignee makes the job
fail (DoesNotExist / AttributeError). Returns recipient and action of the
mail actually sent. -/
def send_task_notification (st : Store) (n : Notification) : Option (Nat × String) :=
  match st.tasks.find? (fun t => t.id == n.taskId) with
  | none => none
  | some t =>
    match t.assignee with
    | none => none
    | some a => some (a, n.action)

/-- One reminder mail of send_due_date_reminder: which task, to whom. -/
structure Reminder where
  taskId : Nat
  recipient : Nat
  deriving DecidableEq, Repr

/-- The queryset of send_due_date_reminder:
Task.objects.filter(due_date__lte=now + 1 day, status="pending").
The base manager is not filtered by not_deleted, and there is no lower
bound on due_date; rows with a null due_date fall out of the SQL
comparison. One day is 86400 seconds. -/
def reminderMatch (now : Int) (t : Task) : Bool :=
  (match t.dueDate with | some d => decide (d ≤ now + 86400) | none => false) &&
  t.status == Status.pending

/-- The mail loop of send_due_date_reminder: one mail per matching task to
task.assignee.email; a null assignee raises AttributeError and aborts the
job (fail_silently=False), keeping the mails already sent. Returns the
sent mails and whether the job crashed. -/
def reminderLoop : List Task → List Reminder × Bool
  | [] => ([], false)
  | t :: ts =>
    match t.assignee with
    | none => ([], true)
    | some a =>
      let r := reminderLoop ts
      (⟨t.id, a⟩ :: r.1, r.2)

def send_due_date_reminder (st : Store) (now : Int) : List Reminder × Bool :=
  reminderLoop (st.tasks.filter (reminderMatch now))

/-! Basic facts about the store operations. -/

theorem applyPatch_id (t : Task) (p : TaskPatch) (n : Int) :
    (applyPatch t p n).id = t.id := rfl

theorem applyPatch_isDeleted (t : Task) (p : TaskPatch) (n : Int) :
    (applyPatch t p n).isDeleted = t.isDeleted := rfl

theorem applyPatch_deletedAt (t : Task) (p : TaskPatch) (n : Int) :
    (applyPatch t p n).deletedAt = t.deletedAt := rfl

theorem softDelete_id (t : Task) (n : Int) : (softDelete t n).id = t.id := rfl

theorem getObject_spec {st : Store} {tid : Nat} {t : Task}
    (h : getObject st tid = some t) :
    t ∈ st.tasks ∧ t.isDeleted = false ∧ t.id = tid := by
  unfold getObject notDeleted at h
  have hmem := List.mem_of_find?_eq_some h
  have hpred := List.find?_some h
  rw [List.mem_filter] at hmem
  exact ⟨hmem.1, by simpa using hmem.2, by simpa using hpred⟩

theorem getObject_eq_none {st : Store} {tid : Nat}
    (h : ∀ t ∈ st.tasks, t.id = tid → t.isDeleted = true) :
    getObject st tid = none := by
  unfold getObject notDeleted
  rw [List.find?_eq_none]
  intro t ht hbeq
  rw [List.mem_filter] at ht
  have hid : t.id = tid := by simpa using hbeq
  have hdel := h t ht.1 hid
  have hkeep := ht.2
  rw [hdel] at hkeep
  simp at hkeep

theorem mem_saveTask_of_ne {st : Store} {t u : Task}
    (hu : u ∈ st.tasks) (hne : u.id ≠ t.id) :
    u ∈ (saveTask st t).tasks := by
  unfold saveTask
  refine List.mem_map.mpr ⟨u, hu, ?_⟩
  have hb : (u.id == t.id) = false := beq_eq_false_iff_ne.mpr hne
  simp [hb]

theorem mem_saveTask_cases {st : Store} {t u : Task}
    (hu : u ∈ (saveTask st t).tasks) :
    u = t ∨ u ∈ st.tasks := by
  unfold saveTask at hu
  obtain ⟨v, hv, he⟩ := List.mem_map.mp hu
  split at he
  · exact Or.inl he.symm
  · exact Or.inr (he ▸ hv)

theorem getObject_after_delete {st : Store} {task : Task} {tid : Nat} {n : Int}
    (hid : task.id = tid) :
    getObject (saveTask st (softDelete task n)) tid = none := by
  apply getObject_eq_none
  intro u hu huid
  unfold saveTask at hu
  obtain ⟨v, hv, he⟩ := List.mem_map.mp hu
  split at he
  · rw [← he]; rfl
  · rename_i hne
    exfalso
    apply hne
    rw [← he] at huid
    exact beq_iff_eq.mpr (huid.trans hid.symm)

theorem perm_denied_iff (t : Task) (c : User) :
    ((t.owner != c.id && !c.isStaff) = true) ↔ ¬ (t.owner = c.id ∨ c.isStaff = true) := by
  simp [bne_iff_ne, not_or]

theorem reminderMatch_iff (now : Int) (t : Task) :
    reminderMatch now t = true ↔
      t.status = Status.pending ∧ ∃ d, t.dueDate = some d ∧ d ≤ now + 86400 := by
  unfold reminderMatch
  rcases hd : t.dueDate with _ | d
  · simp [hd]
  · simp [hd, Bool.and_eq_true, beq_iff_eq, and_comm]

theorem reminderLoop_ok (l : List Task) (h : ∀ t ∈ l, t.assignee ≠ none) :
    (reminderLoop l).2 = false
    ∧ ∀ r : Reminder, (r ∈ (reminderLoop l).1 ↔
        ∃ t, t ∈ l ∧ t.id = r.taskId ∧ t.assignee = some r.recipient) := by
  induction l with
  | nil => simp [reminderLoop]
  | cons t ts ih =>
    rcases ha : t.assignee with _ | a
    · exact absurd ha (h t (List.mem_cons_self t ts))
    · have ih' := ih (fun u hu => h u (List.mem_cons_of_mem t hu))
      constructor
      · simp [reminderLoop, ha, ih'.1]
      · intro r
        simp only [reminderLoop, ha, List.mem_cons]
        constructor
        · intro hr
          rcases hr with hr | hr
          · exact ⟨t, Or.inl rfl, by rw [hr], by rw [hr, ha]⟩
          · obtain ⟨u, hu, hid, has⟩ := (ih'.2 r).mp hr
            exact ⟨u, Or.inr hu, hid, has⟩
        · rintro ⟨u, hu, hid, has⟩
          rcases hu with rfl | hu'
          · left
            have hrec : a = r.recipient := by
              rw [ha] at has
              exact Option.some.inj has
            cases r
            simp only [Reminder.mk.injEq]
            exact ⟨hid.symm, hrec.symm⟩
          · right
            exact (ih'.2 r).mpr ⟨u, hu', hid, has⟩

/-! Claim C1. -/

def c1Task : Task :=
  { id := 1, title := "Doc", description := "x", status := .pending, owner := 1,
    assignee := none, dueDate := none, createdAt := 0, updatedAt := 0,
    isDeleted := false, deletedAt := none }

def c1St : Store := ⟨[c1Task], [1, 2]⟩

def c1Patch : TaskPatch := { assignee := some (some 2) }

/-- C1 (code_bug): for the failing input - a task whose assignee is null,
updated by its owner to assignee := user 2, an existing user -
perform_update enqueues only the "updated" notification, persists the new
assignee, and then raises AttributeError (None.id), so the "assigned"
notification the claim requires is never enqueued and the request does
not return the updated task. -/
theorem update_from_null_assignee_faults :
    (updateTask c1St ⟨1, false⟩ 1 c1Patch 5).result = Except.error ApiError.attributeFault
    ∧ (updateTask c1St ⟨1, false⟩ 1 c1Patch 5).notifs = [⟨1, "updated"⟩]
    ∧ (updateTask c1St ⟨1, false⟩ 1 c1Patch 5).store.tasks.map Task.assignee = [some 2] :=
  ⟨rfl, rfl, rfl⟩

/-! Claim C2. -/

def c2Task : Task :=
  { id := 1, title := "Doc", description := "x", status := .pending, owner := 1,
    assignee := some 2, dueDate := some (-100), createdAt := -500, updatedAt := -500,
    isDeleted := true, deletedAt := some (-200) }

def c2St : Store := ⟨[c2Task], [1, 2]⟩

/-- C2, counterexample: at now = 0, a soft-deleted pending task whose due
date already passed (due_date = -100 < now) still receives a reminder,
because the job's queryset neither excludes deleted rows nor bounds
due_date from below; the claim says such a task gets no reminder. -/
theorem reminder_includes_deleted_past_due :
    c2Task.isDeleted = true
    ∧ c2Task.dueDate = some (-100)
    ∧ (-100 : Int) < 0
    ∧ send_due_date_reminder c2St 0 = ([⟨1, 2⟩], false) :=
  ⟨rfl, rfl, by decide, rfl⟩

/-- C2, amended: a run of the reminder job at time now sends a reminder,
addressed to the task's assignee, for exactly the tasks with
status == pending and a non-null due_date ≤ now + 24h - regardless of
is_deleted and including already-past due dates - provided every such
task has a non-null assignee (a null assignee crashes the job). -/
theorem reminder_selection_characterization (st : Store) (now : Int)
    (hA : ∀ t ∈ st.tasks, t.status = Status.pending →
        ∀ d, t.dueDate = some d → d ≤ now + 86400 → t.assignee ≠ none) :
    (send_due_date_reminder st now).2 = false
    ∧ ∀ r : Reminder, (r ∈ (send_due_date_reminder st now).1 ↔
        ∃ t, t ∈ st.tasks ∧ t.status = Status.pending
          ∧ (∃ d, t.dueDate = some d ∧ d ≤ now + 86400)
          ∧ t.id = r.taskId ∧ t.assignee = some r.recipient) := by
  have hl : ∀ t ∈ st.tasks.filter (reminderMatch now), t.assignee ≠ none := by
    intro t ht
    rw [List.mem_filter] at ht
    obtain ⟨hs, d, hd, hle⟩ := (reminderMatch_iff now t).mp ht.2
    exact hA t ht.1 hs d hd hle
  have hloop := reminderLoop_ok (st.tasks.filter (reminderMatch now)) hl
  refine ⟨hloop.1, fun r => ?_⟩
  have hiff := hloop.2 r
  rw [show (send_due_date_reminder st now).1
        = (reminderLoop (st.tasks.filter (reminderMatch now))).1 from rfl, hiff]
  constructor
  · rintro ⟨t, ht, hid, has⟩
    rw [List.mem_filter] at ht
    obtain ⟨hs, hdue⟩ := (reminderMatch_iff now t).mp ht.2
    exact ⟨t, ht.1, hs, hdue, hid, has⟩
  · rintro ⟨t, ht, hs, hdue, hid, has⟩
    exact ⟨t, List.mem_filter.mpr ⟨ht, (reminderMatch_iff now t).mpr ⟨hs, hdue⟩⟩, hid, has⟩

def c2wTask : Task :=
  { id := 3, title := "Doc", description := "x", status := .pending, owner := 1,
    assignee := some 2, dueDate := some 50, createdAt := 0, updatedAt := 0,
    isDeleted := false, deletedAt := none }

def c2wSt : Store := ⟨[c2wTask], [1, 2]⟩

/-- C2, witness: a concrete run at now = 0 on a store holding one pending
task due at 50 and assigned to user 2 completes without crashing and
sends that task's reminder to user 2. -/
theorem reminder_selection_witness :
    (send_due_date_reminder c2wSt 0).2 = false
    ∧ (⟨3, 2⟩ : Reminder) ∈ (send_due_date_reminder c2wSt 0).1 := by
  have h := reminder_selection_characterization c2wSt 0 (by
    intro t ht hs d hd hle
    have ht' : t = c2wTask := by simpa [c2wSt] using ht
    subst ht'
    decide)
  exact ⟨h.1, (h.2 ⟨3, 2⟩).mpr
    ⟨c2wTask, by simp [c2wSt], rfl, ⟨50, rfl, by decide⟩, rfl, rfl⟩⟩

/-! Claim C9. -/

def c9Task : Task :=
  { id := 1, title := "Doc", description := "x", status := .pending, owner := 1,
    assignee := none, dueDate := none, createdAt := 0, updatedAt := 0,
    isDeleted := false, deletedAt := none }

/-- C9, counterexample: Task.delete stamps deleted_at := now() on every
call, so deleting at time 1 and again at time 2 does not leave the same
end state as deleting once at time 1: deleted_at moves from 1 to 2. -/
theorem double_delete_changes_state :
    softDelete (softDelete c9Task 1) 2 ≠ softDelete c9Task 1
    ∧ (softDelete (softDelete c9Task 1) 2).deletedAt = some 2
    ∧ (softDelete c9Task 1).deletedAt = some 1 :=
  ⟨fun h => absurd (congrArg Task.deletedAt h) (by decide), rfl, rfl⟩

/-- C9, amended: soft_delete is absorptive rather than idempotent over
time: a second call leaves the same end state as a single call made at
the second call's time; two calls at the same timestamp equal one call;
and is_deleted is unaffected by the repetition. -/
theorem soft_delete_last_call_wins (t : Task) (n₁ n₂ : Int) :
    softDelete (softDelete t n₁) n₂ = softDelete t n₂
    ∧ softDelete (softDelete t n₁) n₁ = softDelete t n₁
    ∧ (softDelete (softDelete t n₁) n₂).isDeleted = (softDelete t n₁).isDeleted :=
  ⟨rfl, rfl, rfl⟩

/-! Claim C10. -/

/-- C10 (confirmed): a Create whose assignee names no existing user fails
serializer validation, creating nothing and enqueuing nothing; an Update
addressing an existing non-deleted task with such an assignee likewise
fails validation and modifies nothing. -/
theorem invalid_assignee_rejected (st : Store) (c : User) (n : Int) (uid : Nat)
    (hbad : st.users.contains uid = false) :
    (∀ pl : CreatePayload, pl.assignee = some uid →
        (createTask st c pl n).result = Except.error ApiError.validation
        ∧ (createTask st c pl n).store = st
        ∧ (createTask st c pl n).notifs = [])
    ∧ (∀ tid p (t : Task), getObject st tid = some t → p.assignee = some (some uid) →
        (updateTask st c tid p n).result = Except.error ApiError.validation
        ∧ (updateTask st c tid p n).store = st
        ∧ (updateTask st c tid p n).notifs = []) := by
  have hnotmem : uid ∉ st.users := by simpa using hbad
  constructor
  · intro pl hpa
    have hv : assigneeValid st pl.assignee = false := by
      rw [hpa]
      simp [assigneeValid, hnotmem]
    refine ⟨?_, ?_, ?_⟩ <;> simp [createTask, hv]
  · intro tid p t hget hpa
    have hv : patchValid st p = false := by
      unfold patchValid
      rw [hpa]
      simp [assigneeValid, hnotmem]
    refine ⟨?_, ?_, ?_⟩ <;> simp [updateTask, hget, hv]

def c10Task : Task :=
  { id := 1, title := "Doc", description := "x", status := .pending, owner := 1,
    assignee := none, dueDate := none, createdAt := 0, updatedAt := 0,
    isDeleted := false, deletedAt := none }

def c10St : Store := ⟨[c10Task], [1, 2]⟩

def c10Pl : CreatePayload := { title := "Doc", description := "x", assignee := some 99 }

/-- C10, witness: creating with assignee := 99 in a store whose users are
1 and 2 fails with a validation error and leaves the store unchanged. -/
theorem invalid_assignee_rejected_witness :
    (createTask c10St ⟨1, false⟩ c10Pl 0).result = Except.error ApiError.validation
    ∧ (createTask c10St ⟨1, false⟩ c10Pl 0).store = c10St := by
  have h := (invalid_assignee_rejected c10St ⟨1, false⟩ 0 99 rfl).1 c10Pl rfl
  exact ⟨h.1, h.2.1⟩

/-! Claim C3. -/

theorem deleteTask_none {s : Store} {c2 : User} {tid : Nat} {n2 : Int}
    (h : getObject s tid = none) :
    deleteTask s c2 tid n2 = ⟨Except.error ApiError.notFound, s⟩ := by
  simp [deleteTask, h]

/-- C3 (confirmed): once Delete succeeds on an id, a Retrieve of that id
fails NotFound, a second Delete fails NotFound leaving the store as it
was, and no exposed operation un-deletes: in any store with distinct
primary keys, every soft-deleted row survives unchanged through any
Update, Create or Delete. -/
theorem soft_delete_monotonic (st : Store) (c : User) (tid : Nat) (n : Int)
    (hok : (deleteTask st c tid n).result = Except.ok ()) :
    retrieveTask (deleteTask st c tid n).store tid = Except.error ApiError.notFound
    ∧ (∀ c2 n2,
        (deleteTask (deleteTask st c tid n).store c2 tid n2).result
          = Except.error ApiError.notFound
        ∧ (deleteTask (deleteTask st c tid n).store c2 tid n2).store
          = (deleteTask st c tid n).store)
    ∧ (∀ s : Store, (s.tasks.map Task.id).Nodup → ∀ u ∈ s.tasks, u.isDeleted = true →
        (∀ c2 tid2 p n2, u ∈ (updateTask s c2 tid2 p n2).store.tasks)
        ∧ (∀ c2 pl n2, u ∈ (createTask s c2 pl n2).store.tasks)
        ∧ (∀ c2 tid2 n2, u ∈ (deleteTask s c2 tid2 n2).store.tasks)) := by
  have hobj : ∃ task, getObject st tid = some task ∧ task.id = tid ∧
      (deleteTask st c tid n).store = saveTask st (softDelete task n) := by
    rcases hg : getObject st tid with _ | task
    · exfalso; simp [deleteTask, hg] at hok
    · refine ⟨task, rfl, (getObject_spec hg).2.2, ?_⟩
      cases hp : (task.owner != c.id && !c.isStaff)
      · simp [deleteTask, hg, hp]
      · exfalso; simp [deleteTask, hg, hp] at hok
  obtain ⟨task, hg, htid, hst⟩ := hobj
  have hnone : getObject (deleteTask st c tid n).store tid = none := by
    rw [hst]; exact getObject_after_delete htid
  refine ⟨by simp [retrieveTask, hnone], fun c2 n2 => ⟨by rw [deleteTask_none hnone],
    by rw [deleteTask_none hnone]⟩, ?_⟩
  intro s hnd u hu hdel
  have undel : ∀ (tid2 : Nat) (task2 : Task), getObject s tid2 = some task2 → u.id ≠ task2.id := by
    intro tid2 task2 hg2 he
    obtain ⟨hmem2, hndel2, _⟩ := getObject_spec hg2
    have heq : u = task2 := List.inj_on_of_nodup_map hnd hu hmem2 he
    rw [heq, hndel2] at hdel
    simp at hdel
  refine ⟨?_, ?_, ?_⟩
  · intro c2 tid2 p n2
    rcases hg2 : getObject s tid2 with _ | task2
    · simpa [updateTask, hg2] using hu
    · cases hv : patchValid s p
      · simpa [updateTask, hg2, hv] using hu
      · cases hp : (task2.owner != c2.id && !c2.isStaff)
        · have hmem' : u ∈ (saveTask s (applyPatch task2 p n2)).tasks :=
            mem_saveTask_of_ne hu (by rw [applyPatch_id]; exact undel tid2 task2 hg2)
          simpa [updateTask, hg2, hv, hp] using hmem'
        · simpa [updateTask, hg2, hv, hp] using hu
  · intro c2 pl n2
    cases hc : (pl.title == "" || pl.description == "" || !assigneeValid s pl.assignee)
    · simp [createTask, hc]
      exact Or.inr hu
    · simpa [createTask, hc] using hu
  · intro c2 tid2 n2
    rcases hg2 : getObject s tid2 with _ | task2
    · simpa [deleteTask, hg2] using hu
    · cases hp : (task2.owner != c2.id && !c2.isStaff)
      · have hmem' : u ∈ (saveTask s (softDelete task2 n2)).tasks :=
          mem_saveTask_of_ne hu (by rw [softDelete_id]; exact undel tid2 task2 hg2)
        simpa [deleteTask, hg2, hp] using hmem'
      · simpa [deleteTask, hg2, hp] using hu

def c3Task : Task :=
  { id := 1, title := "Doc", description := "x", status := .pending, owner := 1,
    assignee := none, dueDate := none, createdAt := 0, updatedAt := 0,
    isDeleted := false, deletedAt := none }

def c3St : Store := ⟨[c3Task], [1]⟩

/-- C3, witness: the owner deletes task 1; a subsequent retrieve of id 1
fails NotFound. -/
theorem soft_delete_monotonic_witness :
    (deleteTask c3St ⟨1, false⟩ 1 4).result = Except.ok ()
    ∧ retrieveTask (deleteTask c3St ⟨1, false⟩ 1 4).store 1
        = Except.error ApiError.notFound :=
  ⟨rfl, (soft_delete_monotonic c3St ⟨1, false⟩ 1 4 rfl).1⟩

/-! Claim C4. -/

/-- C4 (confirmed): no task with is_deleted = true is ever returned: every
element of a List result is non-deleted, and a successful Retrieve
returns a non-deleted task. -/
theorem reads_never_return_deleted (st : Store) (f : TaskFilter) (tid : Nat) :
    (∀ t ∈ listTasks st f, t.isDeleted = false)
    ∧ (∀ t, retrieveTask st tid = Except.ok t → t.isDeleted = false) := by
  constructor
  · intro t ht
    unfold listTasks notDeleted at ht
    rw [List.mem_filter] at ht
    have hin := ht.1
    rw [List.mem_filter] at hin
    simpa using hin.2
  · intro t ht
    rcases hg : getObject st tid with _ | t0
    · simp [retrieveTask, hg] at ht
    · simp [retrieveTask, hg] at ht
      rw [← ht]
      exact (getObject_spec hg).2.1

def c4Task : Task :=
  { id := 1, title := "Doc", description := "x", status := .pending, owner := 1,
    assignee := none, dueDate := none, createdAt := 0, updatedAt := 0,
    isDeleted := false, deletedAt := none }

def c4DelTask : Task :=
  { id := 2, title := "Gone", description := "y", status := .pending, owner := 1,
    assignee := none, dueDate := none, createdAt := 0, updatedAt := 3,
    isDeleted := true, deletedAt := some 3 }

def c4St : Store := ⟨[c4Task, c4DelTask], [1]⟩

/-- C4, witness: retrieving id 1 from a store that also holds a deleted
task succeeds with the non-deleted row. -/
theorem reads_never_return_deleted_witness :
    retrieveTask c4St 1 = Except.ok c4Task ∧ c4Task.isDeleted = false :=
  ⟨rfl, (reads_never_return_deleted c4St {} 1).2 c4Task rfl⟩

/-! Claim C5. -/

def c5Task : Task :=
  { id := 1, title := "Doc", description := "x", status := .pending, owner := 1,
    assignee := none, dueDate := none, createdAt := 0, updatedAt := 0,
    isDeleted := false, deletedAt := none }

def c5St : Store := ⟨[c5Task], [1, 2]⟩

def c5Patch : TaskPatch := { assignee := some (some 99) }

/-- C5, counterexample: user 2 - neither owner nor staff - updates user
1's task with an assignee naming no existing user; because DRF runs
serializer validation before perform_update's permission check, the
request fails with a validation error, not Forbidden (the record is
still unchanged). -/
theorem nonowner_invalid_update_not_forbidden :
    (updateTask c5St ⟨2, false⟩ 1 c5Patch 5).result = Except.error ApiError.validation
    ∧ ¬ (updateTask c5St ⟨2, false⟩ 1 c5Patch 5).result = Except.error ApiError.forbidden
    ∧ (updateTask c5St ⟨2, false⟩ 1 c5Patch 5).store = c5St := by
  refine ⟨rfl, fun h => ?_, rfl⟩
  have h2 : Except.error (α := Task) ApiError.validation = Except.error ApiError.forbidden :=
    (rfl : (updateTask c5St ⟨2, false⟩ 1 c5Patch 5).result
        = Except.error ApiError.validation).symm.trans h
  exact ApiError.noConfusion (Except.error.inj h2)

/-- C5, amended: for an existing non-deleted task, Delete succeeds iff
the caller is the owner or staff, failing Forbidden with the store
unchanged otherwise; an Update by a caller that is neither owner nor
staff never succeeds, changes nothing and enqueues nothing - failing
Forbidden when the body passes validation and with a validation error
(raised before the permission check) when it does not - and a successful
Update implies the caller was owner or staff. -/
theorem mutation_authorization (st : Store) (c : User) (tid : Nat) (p : TaskPatch)
    (n : Int) (t : Task) (hget : getObject st tid = some t) :
    ((deleteTask st c tid n).result = Except.ok () ↔ (t.owner = c.id ∨ c.isStaff = true))
    ∧ (¬ (t.owner = c.id ∨ c.isStaff = true) →
        (deleteTask st c tid n).result = Except.error ApiError.forbidden
        ∧ (deleteTask st c tid n).store = st)
    ∧ (∀ t', (updateTask st c tid p n).result = Except.ok t' →
        (t.owner = c.id ∨ c.isStaff = true))
    ∧ (¬ (t.owner = c.id ∨ c.isStaff = true) →
        (updateTask st c tid p n).store = st
        ∧ (updateTask st c tid p n).notifs = []
        ∧ (patchValid st p = true →
            (updateTask st c tid p n).result = Except.error ApiError.forbidden)
        ∧ (patchValid st p = false →
            (updateTask st c tid p n).result = Except.error ApiError.validation)) := by
  cases hp : (t.owner != c.id && !c.isStaff) with
  | true =>
    have hdenied : ¬ (t.owner = c.id ∨ c.isStaff = true) := (perm_denied_iff t c).mp hp
    refine ⟨⟨fun h => ?_, fun h => absurd h hdenied⟩, fun _ => ⟨?_, ?_⟩, ?_, fun _ => ?_⟩
    · exfalso; simp [deleteTask, hget, hp] at h
    · simp [deleteTask, hget, hp]
    · simp [deleteTask, hget, hp]
    · intro t' h
      exfalso
      cases hv : patchValid st p
      · simp [updateTask, hget, hv] at h
      · simp [updateTask, hget, hv, hp] at h
    · cases hv : patchValid st p
      · refine ⟨?_, ?_, ?_, ?_⟩
        · simp [updateTask, hget, hv]
        · simp [updateTask, hget, hv]
        · intro hc; exact Bool.noConfusion hc
        · intro _; simp [updateTask, hget, hv]
      · refine ⟨?_, ?_, ?_, ?_⟩
        · simp [updateTask, hget, hv, hp]
        · simp [updateTask, hget, hv, hp]
        · intro _; simp [updateTask, hget, hv, hp]
        · intro hc; exact Bool.noConfusion hc
  | false =>
    have hallow : t.owner = c.id ∨ c.isStaff = true := by
      by_contra hc
      have := (perm_denied_iff t c).mpr hc
      rw [hp] at this
      cases this
    refine ⟨⟨fun _ => hallow, fun _ => ?_⟩, fun hd => absurd hallow hd,
      fun t' _ => hallow, fun hd => absurd hallow hd⟩
    simp [deleteTask, hget, hp]

/-- C5, witness: user 2 (neither owner nor staff) attempting to delete
user 1's task 1 gets Forbidden and the store is unchanged. -/
theorem mutation_authorization_witness :
    getObject c5St 1 = some c5Task
    ∧ (deleteTask c5St ⟨2, false⟩ 1 7).result = Except.error ApiError.forbidden
    ∧ (deleteTask c5St ⟨2, false⟩ 1 7).store = c5St :=
  ⟨rfl, (mutation_authorization c5St ⟨2, false⟩ 1 {} 7 c5Task rfl).2.1 (by decide)⟩

/-! Claim C6. -/

/-- C6 (confirmed): a successful Create with a non-null assignee U
enqueues exactly one notification, with action "assigned", for the new
task, whose assignee is U - so the dispatcher, resolving the task
against the post-create store, mails U; a successful Create with a null
assignee enqueues nothing. -/
theorem create_notification_spec (st : Store) (c : User) (pl : CreatePayload) (n : Int)
    (t' : Task) (hok : (createTask st c pl n).result = Except.ok t') :
    (∀ u, pl.assignee = some u →
        (createTask st c pl n).notifs = [⟨t'.id, "assigned"⟩]
        ∧ t'.assignee = some u
        ∧ send_task_notification (createTask st c pl n).store ⟨t'.id, "assigned"⟩
            = some (u, "assigned"))
    ∧ (pl.assignee = none → (createTask st c pl n).notifs = []) := by
  cases hc : (pl.title == "" || pl.description == "" || !assigneeValid st pl.assignee) with
  | true => exfalso; simp [createTask, hc] at hok
  | false =>
    simp only [createTask, hc, Bool.false_eq_true, if_false] at hok ⊢
    have ht' : t' =
        { id := nextId st, title := pl.title, description := pl.description,
          status := pl.status, owner := c.id, assignee := pl.assignee,
          dueDate := pl.dueDate, createdAt := n, updatedAt := n,
          isDeleted := false, deletedAt := none } := by
      have := Except.ok.inj hok
      exact this.symm
    constructor
    · intro u hu
      refine ⟨?_, ?_, ?_⟩
      · rw [ht']; simp [hu]
      · rw [ht']; exact hu
      · rw [ht']
        simp only [send_task_notification]
        rw [List.find?_cons_of_pos _ (by simp)]
        simp [hu]
    · intro hnone
      simp [hnone]

def c6St : Store := ⟨[], [1, 2]⟩

def c6Pl : CreatePayload := { title := "Doc", description := "x", assignee := some 2 }

def c6NewTask : Task :=
  { id := 1, title := "Doc", description := "x", status := .pending, owner := 1,
    assignee := some 2, dueDate := none, createdAt := 0, updatedAt := 0,
    isDeleted := false, deletedAt := none }

/-- C6, witness: user 1 creates a task assigned to user 2: exactly one
"assigned" notification is enqueued and the dispatcher resolves it to
recipient 2. -/
theorem create_notification_spec_witness :
    (createTask c6St ⟨1, false⟩ c6Pl 0).result = Except.ok c6NewTask
    ∧ (createTask c6St ⟨1, false⟩ c6Pl 0).notifs = [⟨1, "assigned"⟩]
    ∧ send_task_notification (createTask c6St ⟨1, false⟩ c6Pl 0).store ⟨1, "assigned"⟩
        = some (2, "assigned") := by
  have h := (create_notification_spec c6St ⟨1, false⟩ c6Pl 0 c6NewTask rfl).1 2 rfl
  exact ⟨rfl, h.1, h.2.2⟩

/-! Claim C7. -/

/-- C7 (confirmed): a successful Update whose result leaves the assignee
as it was - non-null unchanged or null unchanged - enqueues exactly one
notification, with action "updated". -/
theorem update_unchanged_assignee_single_notification (st : Store) (c : User) (tid : Nat)
    (p : TaskPatch) (n : Int) (t t' : Task)
    (hget : getObject st tid = some t)
    (hok : (updateTask st c tid p n).result = Except.ok t')
    (hsame : t'.assignee = t.assignee) :
    (updateTask st c tid p n).notifs = [⟨t.id, "updated"⟩] := by
  cases hv : patchValid st p with
  | false => exfalso; simp [updateTask, hget, hv] at hok
  | true =>
    cases hp : (t.owner != c.id && !c.isStaff) with
    | true => exfalso; simp [updateTask, hget, hv, hp] at hok
    | false =>
      rcases ha : (applyPatch t p n).assignee with _ | newA
      · simp [updateTask, hget, hv, hp, ha, applyPatch_id]
      · rcases hb : t.assignee with _ | oldA
        · exfalso; simp [updateTask, hget, hv, hp, ha, hb] at hok
        · have ht' : applyPatch t p n = t' := by
            simpa [updateTask, hget, hv, hp, ha, hb] using hok
          have heq : newA = oldA := by
            rw [← ht', ha] at hsame
            rw [hb] at hsame
            exact Option.some.inj hsame
          simp [updateTask, hget, hv, hp, ha, hb, heq, applyPatch_id]

def c7Task : Task :=
  { id := 1, title := "Doc", description := "x", status := .pending, owner := 1,
    assignee := some 2, dueDate := none, createdAt := 0, updatedAt := 0,
    isDeleted := false, deletedAt := none }

def c7St : Store := ⟨[c7Task], [1, 2]⟩

def c7Task' : Task := { c7Task with updatedAt := 9 }

/-- C7, witness: the owner sends an empty PATCH (assignee untouched); the
update succeeds and enqueues exactly one "updated" notification. -/
theorem update_unchanged_assignee_witness :
    (updateTask c7St ⟨1, false⟩ 1 {} 9).result = Except.ok c7Task'
    ∧ (updateTask c7St ⟨1, false⟩ 1 {} 9).notifs = [⟨1, "updated"⟩] :=
  ⟨rfl, update_unchanged_assignee_single_notification c7St ⟨1, false⟩ 1 {} 9
    c7Task c7Task' rfl rfl rfl⟩

/-! Claim C8. -/

/-- C8 (confirmed): if every task in the store satisfies
is_deleted = true ⇔ deleted_at ≠ null, then every task in the store left
by any Create, Update or Delete still satisfies it. -/
theorem flag_timestamp_invariant_preserved (st : Store)
    (h : ∀ t ∈ st.tasks, (t.isDeleted = true ↔ t.deletedAt ≠ none)) :
    (∀ c pl n, ∀ t' ∈ (createTask st c pl n).store.tasks,
        (t'.isDeleted = true ↔ t'.deletedAt ≠ none))
    ∧ (∀ c tid p n, ∀ t' ∈ (updateTask st c tid p n).store.tasks,
        (t'.isDeleted = true ↔ t'.deletedAt ≠ none))
    ∧ (∀ c tid n, ∀ t' ∈ (deleteTask st c tid n).store.tasks,
        (t'.isDeleted = true ↔ t'.deletedAt ≠ none)) := by
  refine ⟨?_, ?_, ?_⟩
  · intro c pl n t' ht'
    cases hc : (pl.title == "" || pl.description == "" || !assigneeValid st pl.assignee)
    · simp [createTask, hc] at ht'
      rcases ht' with rfl | hmem
      · simp
      · exact h t' hmem
    · simp [createTask, hc] at ht'
      exact h t' ht'
  · intro c tid p n t' ht'
    rcases hg : getObject st tid with _ | task
    · simp [updateTask, hg] at ht'
      exact h t' ht'
    · cases hv : patchValid st p
      · simp [updateTask, hg, hv] at ht'
        exact h t' ht'
      · cases hp : (task.owner != c.id && !c.isStaff)
        · have ht'' : t' ∈ (saveTask st (applyPatch task p n)).tasks := by
            simpa [updateTask, hg, hv, hp] using ht'
          rcases mem_saveTask_cases ht'' with rfl | hmem
          · rw [applyPatch_isDeleted, applyPatch_deletedAt]
            exact h task (getObject_spec hg).1
          · exact h t' hmem
        · simp [updateTask, hg, hv, hp] at ht'
          exact h t' ht'
  · intro c tid n t' ht'
    rcases hg : getObject st tid with _ | task
    · simp [deleteTask, hg] at ht'
      exact h t' ht'
    · cases hp : (task.owner != c.id && !c.isStaff)
      · have ht'' : t' ∈ (saveTask st (softDelete task n)).tasks := by
          simpa [deleteTask, hg, hp] using ht'
        rcases mem_saveTask_cases ht'' with rfl | hmem
        · simp [softDelete]
        · exact h t' hmem
      · simp [deleteTask, hg, hp] at ht'
        exact h t' ht'

def c8Task : Task :=
  { id := 1, title := "Doc", description := "x", status := .pending, owner := 1,
    assignee := none, dueDate := none, createdAt := 0, updatedAt := 0,
    isDeleted := false, deletedAt := none }

def c8St : Store := ⟨[c8Task], [1]⟩

/-- C8, witness: after the owner deletes task 1, the resulting row still
satisfies the is_deleted/deleted_at biconditional. -/
theorem flag_timestamp_invariant_witness :
    ((softDelete c8Task 5).isDeleted = true ↔ (softDelete c8Task 5).deletedAt ≠ none) :=
  (flag_timestamp_invariant_preserved c8St (by
    intro t ht
    have ht' : t = c8Task := by simpa [c8St] using ht
    subst ht'
    decide)).2.2 ⟨1, false⟩ 1 5 (softDelete c8Task 5) (by decide)

end TaskMgmt
